import Mathlib

/-!
# Verification of the nautilus_trader timer subsystem

Shallow embedding of `nautilus_trader/common/timer.pyx` (classes `TimeEvent`,
`TimeEventHandler`, `Timer`, `TestTimer`) and proofs of the specification's
claims about it.

Modelling decisions:
* `datetime` / `timedelta` values are integers (a fixed sub-second unit such
  as milliseconds); Python `timedelta` has finite (microsecond) resolution,
  so integer arithmetic is faithful.  `stop_time=None` is `Option.none`.
* `UUID`s are natural numbers produced by a counter (`uuid_count` field models
  the injected `UUIDFactory`; the contract is uniqueness only).
* Callbacks are opaque reference identifiers (`Nat`); the timer only stores
  the reference and never inspects it.
* The abstract base class `Timer` and its subclass `TestTimer` are modelled by
  one flat structure `TestTimer` (the subclass adds only the uuid factory);
  the `Timer`-level operations (`pop_event`, `iterate_next_time`, `__eq__`,
  `__hash__`, construction validation) act on it.
* Methods that mutate `self` are state-passing functions returning the new
  timer; `pop_event` does not assign to any field in the source, so its
  returned state is the input state unchanged.
* The `while` loop of `TestTimer.advance` is embedded with fuel
  (`advanceLoop`); `advance` supplies fuel `(to_time + 1 - next_time).toNat`,
  which is proved sufficient whenever `0 < interval` (the invariant
  established by construction-time validation `Condition.positive`).
-/

namespace NautilusTimer

/-- `TimeEvent`: name of the owning timer, unique id, and the timestamp
(`timer.pyx` lines 28–55: the constructor stores `name` and passes `event_id`,
`event_timestamp` to `Event`). -/
structure TimeEvent where
  name : String
  id : Nat
  timestamp : Int
  deriving DecidableEq, Repr

/-- `TimeEvent.__eq__` (line 57–58): equality by `name` only. -/
def TimeEvent.eqPy (e1 e2 : TimeEvent) : Bool :=
  e1.name == e2.name

/-- `TimeEventHandler` (lines 70–102): a bundled event and an opaque callback
reference (the callable is modelled by a reference id). -/
structure TimeEventHandler where
  event : TimeEvent
  handler : Nat
  deriving DecidableEq, Repr

/-- `TimeEventHandler.__eq__` (line 82–83): by `event.timestamp`. -/
def TimeEventHandler.eqPy (h1 h2 : TimeEventHandler) : Bool :=
  h1.event.timestamp == h2.event.timestamp

/-- `TimeEventHandler.__ne__` (line 85–86). -/
def TimeEventHandler.nePy (h1 h2 : TimeEventHandler) : Bool :=
  h1.event.timestamp != h2.event.timestamp

/-- `TimeEventHandler.__lt__` (line 88–89). -/
def TimeEventHandler.ltPy (h1 h2 : TimeEventHandler) : Bool :=
  decide (h1.event.timestamp < h2.event.timestamp)

/-- `TimeEventHandler.__le__` (line 91–92). -/
def TimeEventHandler.lePy (h1 h2 : TimeEventHandler) : Bool :=
  decide (h1.event.timestamp ≤ h2.event.timestamp)

/-- `TimeEventHandler.__gt__` (line 94–95). -/
def TimeEventHandler.gtPy (h1 h2 : TimeEventHandler) : Bool :=
  decide (h1.event.timestamp > h2.event.timestamp)

/-- `TimeEventHandler.__ge__` (line 97–98). -/
def TimeEventHandler.gePy (h1 h2 : TimeEventHandler) : Bool :=
  decide (h1.event.timestamp ≥ h2.event.timestamp)

/-- State of a `TestTimer` (fields set by `Timer.__init__`, lines 143–149,
plus the uuid factory added by `TestTimer.__init__`, line 237, modelled as a
counter). -/
structure TestTimer where
  name : String
  callback : Nat
  interval : Int
  start_time : Int
  next_time : Int
  stop_time : Option Int
  expired : Bool
  uuid_count : Nat
  deriving DecidableEq, Repr

/-- Modelled from the spec: `Condition.valid_string` (only declared in
`correctness.pxd`; the spec lists "empty name" as the rejected case). -/
def validString (s : String) : Bool :=
  s ≠ ""

/-- Modelled from the spec: `Condition.positive(interval.total_seconds())` —
"non-positive interval" is rejected. -/
def positiveInterval (i : Int) : Bool :=
  decide (0 < i)

/-- `Timer.__init__` (lines 112–149): validation then field initialisation.
The `Condition` checks raise on failure, modelled by `Option.none`; the
validation predicates themselves are modelled from the spec (`Condition` is
only declared, not implemented, in the sources).  `Condition.callable` always
holds for an opaque callback reference.  Note Python's `if stop_time:` is
"stop_time is not None" (datetimes are always truthy). -/
def Timer.init (name : String) (callback : Nat) (interval : Int)
    (start_time : Int) (stop_time : Option Int) : Option TestTimer :=
  if validString name = false then none
  else if positiveInterval interval = false then none
  else if (match stop_time with
           | some st => decide (¬ (start_time + interval ≤ st))
           | none => false) then none
  else some
    { name := name
      callback := callback
      interval := interval
      start_time := start_time
      next_time := start_time + interval
      stop_time := stop_time
      expired := false
      uuid_count := 0 }

/-- `Timer.__eq__` (lines 151–152): by `name` only. -/
def TestTimer.eqPy (t1 t2 : TestTimer) : Bool :=
  t1.name == t2.name

/-- `Timer.__hash__` (lines 157–158): `hash(self.name)`; the Python string
hash is modelled by Lean's string hash (any fixed function of the name). -/
def TestTimer.hashPy (t : TestTimer) : UInt64 :=
  t.name.hash

/-- `Timer.pop_event` (lines 168–180): returns `TimeEvent(name, event_id,
next_time)`; no field of `self` is assigned, so the state is returned
unchanged. -/
def TestTimer.pop_event (t : TestTimer) (event_id : Nat) :
    TimeEvent × TestTimer :=
  (⟨t.name, event_id, t.next_time⟩, t)

/-- `Timer.iterate_next_time` (lines 182–196): `next_time += interval`; then
if `stop_time` is set and `now >= stop_time`, set `expired`. -/
def TestTimer.iterate_next_time (t : TestTimer) (now : Int) : TestTimer :=
  let t1 := { t with next_time := t.next_time + t.interval }
  match t1.stop_time with
  | some st => if now ≥ st then { t1 with expired := true } else t1
  | none => t1

/-- `UUIDFactory.generate` modelled as a counter: returns a fresh id and the
bumped factory state. -/
def TestTimer.generate (t : TestTimer) : Nat × TestTimer :=
  (t.uuid_count, { t with uuid_count := t.uuid_count + 1 })

/-- `TestTimer.cancel` (lines 283–287): sets `expired = True`. -/
def TestTimer.cancel (t : TestTimer) : TestTimer :=
  { t with expired := true }

/-- One iteration of the `while` body of `TestTimer.advance` (lines 257–260):
`events.append(self.pop_event(self._uuid_factory.generate()))` then
`self.iterate_next_time(self.next_time)` — the argument `self.next_time` is
evaluated before the call, i.e. it is the pre-increment next time, the
timestamp of the event just popped. -/
def TestTimer.advanceStep (t : TestTimer) : TimeEvent × TestTimer :=
  let (event_id, t1) := t.generate
  let (ev, t2) := t1.pop_event event_id
  (ev, t2.iterate_next_time t2.next_time)

/-- The `while not self.expired and to_time >= self.next_time` loop of
`TestTimer.advance`, embedded with fuel. -/
def TestTimer.advanceLoop : Nat → TestTimer → Int → List TimeEvent × TestTimer
  | 0, t, _ => ([], t)
  | Nat.succ n, t, to_time =>
    if t.expired = false ∧ t.next_time ≤ to_time then
      let p := t.advanceStep
      let q := TestTimer.advanceLoop n p.2 to_time
      (p.1 :: q.1, q.2)
    else
      ([], t)

/-- `TestTimer.advance` (lines 239–262): run the loop to completion.  The
fuel `(to_time + 1 - next_time).toNat` is sufficient whenever
`0 < interval` (proved in `advanceLoop_fuel_irrel`). -/
def TestTimer.advance (t : TestTimer) (to_time : Int) :
    List TimeEvent × TestTimer :=
  TestTimer.advanceLoop (to_time + 1 - t.next_time).toNat t to_time

/-- `TestTimer.pop_next_event` (lines 264–281): pop one event with a fresh id
and iterate; no expiry check is performed. -/
def TestTimer.pop_next_event (t : TestTimer) : TimeEvent × TestTimer :=
  TestTimer.advanceStep t

/-- States reachable from a given timer state by the mutating operations of
the class (`iterate_next_time`, `advance`, `pop_next_event`, `cancel`,
`pop_event`). -/
inductive Reachable (t : TestTimer) : TestTimer → Prop
  | refl : Reachable t t
  | iterate (t' : TestTimer) (now : Int) :
      Reachable t t' → Reachable t (t'.iterate_next_time now)
  | advance (t' : TestTimer) (to_time : Int) :
      Reachable t t' → Reachable t ((t'.advance to_time).2)
  | popNext (t' : TestTimer) :
      Reachable t t' → Reachable t (t'.pop_next_event).2
  | cancel (t' : TestTimer) :
      Reachable t t' → Reachable t t'.cancel
  | popEvent (t' : TestTimer) (event_id : Nat) :
      Reachable t t' → Reachable t (t'.pop_event event_id).2

/-- Invariant carried by every reachable state of a timer constructed with
start time `s` and interval `i`: `next_time` stays of the form `s + k·i`
with `k ≥ 1` and never drops below the bound `c`. -/
def TimerInv (s i c : Int) (t : TestTimer) : Prop :=
  t.start_time = s ∧ t.interval = i ∧ c ≤ t.next_time ∧
    ∃ k : Nat, 1 ≤ k ∧ t.next_time = s + (k : Int) * i

/-- Concrete instance for witnesses: interval 1 s (= 1000 time units),
`start_time = 0`, no stop time, in the state produced by construction. -/
def timerNoStop : TestTimer :=
  ⟨"TEST-TIMER", 7, 1000, 0, 1000, none, false, 0⟩

/-- Concrete instance: as `timerNoStop` but with `stop_time = 2.5 s`. -/
def timerStop25 : TestTimer :=
  ⟨"TEST-TIMER", 7, 1000, 0, 1000, some 2500, false, 0⟩

/-- Concrete instance: `timerNoStop` after `cancel()`. -/
def timerCancelled : TestTimer :=
  timerNoStop.cancel

/-- Concrete instance: same parameters as `timerNoStop` but another name. -/
def timerOther : TestTimer :=
  ⟨"OTHER-TIMER", 7, 1000, 0, 1000, none, false, 0⟩

/-! ### Basic equations for `advanceStep` -/

theorem advanceStep_fst (t : TestTimer) :
    (t.advanceStep).1 = ⟨t.name, t.uuid_count, t.next_time⟩ := by
  simp [TestTimer.advanceStep, TestTimer.pop_event, TestTimer.generate,
    TestTimer.iterate_next_time]

theorem advanceStep_snd_name (t : TestTimer) :
    (t.advanceStep).2.name = t.name := by
  simp only [TestTimer.advanceStep, TestTimer.pop_event, TestTimer.generate,
    TestTimer.iterate_next_time]
  cases t.stop_time with
  | none => rfl
  | some st => by_cases h : t.next_time ≥ st <;> simp [h]

theorem advanceStep_snd_interval (t : TestTimer) :
    (t.advanceStep).2.interval = t.interval := by
  simp only [TestTimer.advanceStep, TestTimer.pop_event, TestTimer.generate,
    TestTimer.iterate_next_time]
  cases t.stop_time with
  | none => rfl
  | some st => by_cases h : t.next_time ≥ st <;> simp [h]

theorem advanceStep_snd_start (t : TestTimer) :
    (t.advanceStep).2.start_time = t.start_time := by
  simp only [TestTimer.advanceStep, TestTimer.pop_event, TestTimer.generate,
    TestTimer.iterate_next_time]
  cases t.stop_time with
  | none => rfl
  | some st => by_cases h : t.next_time ≥ st <;> simp [h]

theorem advanceStep_snd_stop (t : TestTimer) :
    (t.advanceStep).2.stop_time = t.stop_time := by
  simp only [TestTimer.advanceStep, TestTimer.pop_event, TestTimer.generate,
    TestTimer.iterate_next_time]
  cases t.stop_time with
  | none => rfl
  | some st => by_cases h : t.next_time ≥ st <;> simp [h]

theorem advanceStep_snd_next (t : TestTimer) :
    (t.advanceStep).2.next_time = t.next_time + t.interval := by
  simp only [TestTimer.advanceStep, TestTimer.pop_event, TestTimer.generate,
    TestTimer.iterate_next_time]
  cases t.stop_time with
  | none => rfl
  | some st => by_cases h : t.next_time ≥ st <;> simp [h]

theorem advanceStep_snd_uuid (t : TestTimer) :
    (t.advanceStep).2.uuid_count = t.uuid_count + 1 := by
  simp only [TestTimer.advanceStep, TestTimer.pop_event, TestTimer.generate,
    TestTimer.iterate_next_time]
  cases t.stop_time with
  | none => rfl
  | some st => by_cases h : t.next_time ≥ st <;> simp [h]

theorem advanceStep_snd_expired_none (t : TestTimer) (h : t.stop_time = none) :
    (t.advanceStep).2.expired = t.expired := by
  simp only [TestTimer.advanceStep, TestTimer.pop_event, TestTimer.generate,
    TestTimer.iterate_next_time, h]

theorem advanceStep_snd_expired_some (t : TestTimer) (st : Int)
    (h : t.stop_time = some st) :
    (t.advanceStep).2.expired = if st ≤ t.next_time then true else t.expired := by
  simp only [TestTimer.advanceStep, TestTimer.pop_event, TestTimer.generate,
    TestTimer.iterate_next_time, h]
  by_cases hle : t.next_time ≥ st <;> simp [hle, ge_iff_le]

/-! ### The loop of `advance`: fuel irrelevance and unfolding equations -/

/-- When the loop guard fails, any amount of fuel returns no events and the
unchanged timer. -/
theorem advanceLoop_notrun (n : Nat) (t : TestTimer) (to_time : Int)
    (h : ¬ (t.expired = false ∧ t.next_time ≤ to_time)) :
    TestTimer.advanceLoop n t to_time = ([], t) := by
  cases n with
  | zero => rfl
  | succ n => simp only [TestTimer.advanceLoop, if_neg h]

/-- Any fuel of at least `(to_time + 1 - next_time).toNat` gives the same
result, provided the interval is positive (the construction invariant): the
loop terminates before the fuel runs out. -/
theorem advanceLoop_congr (n : Nat) : ∀ (m : Nat) (t : TestTimer) (to_time : Int),
    0 < t.interval →
    (to_time + 1 - t.next_time).toNat ≤ n →
    (to_time + 1 - t.next_time).toNat ≤ m →
    TestTimer.advanceLoop n t to_time = TestTimer.advanceLoop m t to_time := by
  induction n with
  | zero =>
    intro m t to_time hpos hn hm
    have hc : ¬ (t.expired = false ∧ t.next_time ≤ to_time) := by
      rintro ⟨-, hle⟩
      omega
    rw [advanceLoop_notrun 0 t to_time hc, advanceLoop_notrun m t to_time hc]
  | succ n ih =>
    intro m t to_time hpos hn hm
    by_cases hc : t.expired = false ∧ t.next_time ≤ to_time
    · obtain ⟨m1, rfl⟩ : ∃ m1, m = m1 + 1 := ⟨m - 1, by omega⟩
      simp only [TestTimer.advanceLoop, if_pos hc]
      have hnext : (t.advanceStep).2.next_time = t.next_time + t.interval :=
        advanceStep_snd_next t
      have hint : (t.advanceStep).2.interval = t.interval :=
        advanceStep_snd_interval t
      rw [ih m1 (t.advanceStep).2 to_time (by omega) (by omega) (by omega)]
    · rw [advanceLoop_notrun _ t to_time hc, advanceLoop_notrun _ t to_time hc]

/-- `advance` when the loop guard fails: no events, timer unchanged. -/
theorem advance_notrun (t : TestTimer) (to_time : Int)
    (h : t.expired = true ∨ to_time < t.next_time) :
    t.advance to_time = ([], t) := by
  apply advanceLoop_notrun
  rintro ⟨he, hle⟩
  rcases h with h | h
  · rw [he] at h
    exact Bool.false_ne_true h
  · omega

/-- `advance` when the loop guard holds: one step, then `advance` of the
stepped timer. -/
theorem advance_cons (t : TestTimer) (to_time : Int)
    (hpos : 0 < t.interval) (he : t.expired = false)
    (hle : t.next_time ≤ to_time) :
    t.advance to_time =
      ((t.advanceStep).1 :: ((t.advanceStep).2.advance to_time).1,
       ((t.advanceStep).2.advance to_time).2) := by
  have hfuel : (to_time + 1 - t.next_time).toNat =
      ((to_time + 1 - t.next_time).toNat - 1) + 1 := by omega
  unfold TestTimer.advance
  rw [hfuel]
  simp only [TestTimer.advanceLoop, if_pos (And.intro he hle)]
  have hnext : (t.advanceStep).2.next_time = t.next_time + t.interval :=
    advanceStep_snd_next t
  have hint : (t.advanceStep).2.interval = t.interval :=
    advanceStep_snd_interval t
  rw [advanceLoop_congr ((to_time + 1 - t.next_time).toNat - 1)
    ((to_time + 1 - (t.advanceStep).2.next_time).toNat) (t.advanceStep).2 to_time
    (by omega) (by omega) (by omega)]

/-! ### Composition, preservation and characterisation lemmas -/

/-- Auxiliary: advancing to `T1` and then to `T2 ≥ T1` gives the same final
state as advancing directly to `T2` (induction on an upper bound for the
number of loop iterations of the first call). -/
theorem advance_advance_aux (T1 T2 : Int) (h12 : T1 ≤ T2) :
    ∀ (m : Nat) (t : TestTimer), 0 < t.interval →
    (T1 + 1 - t.next_time).toNat ≤ m →
    ((t.advance T1).2.advance T2).2 = (t.advance T2).2 := by
  intro m
  induction m with
  | zero =>
    intro t hpos hm
    rw [advance_notrun t T1 (Or.inr (by omega))]
  | succ m ih =>
    intro t hpos hm
    by_cases hc : t.expired = false ∧ t.next_time ≤ T1
    · rw [advance_cons t T1 hpos hc.1 hc.2,
        advance_cons t T2 hpos hc.1 (le_trans hc.2 h12)]
      dsimp only
      have hnext := advanceStep_snd_next t
      have hint := advanceStep_snd_interval t
      exact ih (t.advanceStep).2 (by omega) (by omega)
    · have h1 : t.expired = true ∨ T1 < t.next_time := by
        rcases hx : t.expired with _ | _
        · right
          by_contra hh
          push_neg at hh
          exact hc ⟨hx, by omega⟩
        · exact Or.inl rfl
      rw [advance_notrun t T1 h1]

/-- Any property preserved by one loop step is preserved by the whole loop. -/
theorem advanceLoop_preserves (P : TestTimer → Prop)
    (hstep : ∀ t, P t → P (t.advanceStep).2) :
    ∀ (n : Nat) (t : TestTimer) (to_time : Int), P t →
    P ((TestTimer.advanceLoop n t to_time).2) := by
  intro n
  induction n with
  | zero =>
    intro t to_time h
    exact h
  | succ n ih =>
    intro t to_time h
    by_cases hc : t.expired = false ∧ t.next_time ≤ to_time
    · simp only [TestTimer.advanceLoop, if_pos hc]
      exact ih (t.advanceStep).2 to_time (hstep t h)
    · rw [advanceLoop_notrun _ _ _ hc]
      exact h

/-- Any property preserved by one loop step is preserved by `advance`. -/
theorem advance_preserves (P : TestTimer → Prop)
    (hstep : ∀ t, P t → P (t.advanceStep).2)
    (t : TestTimer) (to_time : Int) (h : P t) :
    P ((t.advance to_time).2) :=
  advanceLoop_preserves P hstep _ t to_time h

/-- C3 (amended): for every non-expired TestTimer with no stop time (and the
construction invariant `0 < interval`), `advance(to_time)` returns one
TimeEvent for each fire point `next_time`, `next_time + interval`, … that is
`≤ to_time`, in that order, each timestamp exactly `interval` apart: when `n`
counts exactly the fire points `next_time + k·interval ≤ to_time`, the
returned events carry exactly those fire points as timestamps, in order.
(The unamended claim fails for timers with a stop time, which stop producing
events once expiry is detected.) -/
theorem advance_noStop_timestamps (to_time : Int) (n : Nat) :
    ∀ (t : TestTimer), 0 < t.interval → t.stop_time = none →
    t.expired = false →
    (∀ k : Nat, t.next_time + k * t.interval ≤ to_time ↔ k < n) →
    ((t.advance to_time).1).map TimeEvent.timestamp =
      (List.range n).map (fun k : Nat => t.next_time + (k : Int) * t.interval) := by
  induction n with
  | zero =>
    intro t hpos hstop he hn
    have h0 : ¬ (t.next_time ≤ to_time) := by
      intro hx
      have := (hn 0).mp (by push_cast; omega)
      omega
    rw [advance_notrun t to_time (Or.inr (by omega))]
    simp
  | succ n ih =>
    intro t hpos hstop he hn
    have hle : t.next_time ≤ to_time := by
      have := (hn 0).mpr (Nat.succ_pos n)
      push_cast at this
      omega
    rw [advance_cons t to_time hpos he hle]
    dsimp only
    rw [List.map_cons, advanceStep_fst]
    have hstop2 : (t.advanceStep).2.stop_time = none := by
      rw [advanceStep_snd_stop]
      exact hstop
    have he2 : (t.advanceStep).2.expired = false := by
      rw [advanceStep_snd_expired_none t hstop]
      exact he
    have hint := advanceStep_snd_interval t
    have hnext := advanceStep_snd_next t
    have hn2 : ∀ k : Nat,
        (t.advanceStep).2.next_time + k * (t.advanceStep).2.interval ≤ to_time ↔
        k < n := by
      intro k
      rw [hnext, hint]
      have hk := hn (k + 1)
      push_cast at hk
      have hcast : t.next_time + ((k : Int) + 1) * t.interval =
          t.next_time + t.interval + (k : Int) * t.interval := by ring
      rw [hcast] at hk
      rw [hk]
      omega
    rw [ih (t.advanceStep).2 (by omega) hstop2 he2 hn2]
    simp only [hnext, hint]
    rw [List.range_succ_eq_map, List.map_cons, List.map_map]
    congr 1
    · push_cast
      ring
    · apply List.map_congr_left
      intro k _
      simp only [Function.comp_apply]
      push_cast
      ring

/-- `advanceStep` on an explicit record with a stop time, in closed form. -/
theorem advanceStep_record_some (nm : String) (cb u : Nat) (i s nx st : Int)
    (e : Bool) :
    TestTimer.advanceStep ⟨nm, cb, i, s, nx, some st, e, u⟩ =
      (⟨nm, u, nx⟩,
       ⟨nm, cb, i, s, nx + i, some st, if nx ≥ st then true else e, u + 1⟩) := by
  simp only [TestTimer.advanceStep, TestTimer.pop_event, TestTimer.generate,
    TestTimer.iterate_next_time]
  by_cases h : nx ≥ st <;> simp [h]

/-! ### Field lemmas for `iterate_next_time` and construction -/

theorem iterate_next_time_next (t : TestTimer) (now : Int) :
    (t.iterate_next_time now).next_time = t.next_time + t.interval := by
  simp only [TestTimer.iterate_next_time]
  cases t.stop_time with
  | none => rfl
  | some st => by_cases h : now ≥ st <;> simp [h]

theorem iterate_next_time_start (t : TestTimer) (now : Int) :
    (t.iterate_next_time now).start_time = t.start_time := by
  simp only [TestTimer.iterate_next_time]
  cases t.stop_time with
  | none => rfl
  | some st => by_cases h : now ≥ st <;> simp [h]

theorem iterate_next_time_interval (t : TestTimer) (now : Int) :
    (t.iterate_next_time now).interval = t.interval := by
  simp only [TestTimer.iterate_next_time]
  cases t.stop_time with
  | none => rfl
  | some st => by_cases h : now ≥ st <;> simp [h]

/-- What a successful construction returns, and the facts the passed checks
give. -/
theorem init_some_elim (nm : String) (cb : Nat) (i s : Int) (st : Option Int)
    (t : TestTimer) (hinit : Timer.init nm cb i s st = some t) :
    t = ⟨nm, cb, i, s, s + i, st, false, 0⟩ ∧ nm ≠ "" ∧ 0 < i ∧
      ∀ x ∈ st, s + i ≤ x := by
  unfold Timer.init at hinit
  split_ifs at hinit with h1 h2 h3
  have ht := (Option.some.inj hinit).symm
  have hnm : nm ≠ "" := by
    simpa [validString] using h1
  have hi : 0 < i := by
    simpa [positiveInterval] using h2
  refine ⟨ht, hnm, hi, ?_⟩
  intro x hx
  cases hst : st with
  | none =>
    rw [hst] at hx
    exact absurd hx (by simp)
  | some y =>
    rw [hst] at hx h3
    have hxy : x = y := by
      have := hx
      simp at this
      omega
    subst hxy
    simpa using h3

/-! ### Preservation of the timer invariant -/

theorem advanceStep_inv (s i c : Int) (hpos : 0 < i) (t : TestTimer)
    (h : TimerInv s i c t) : TimerInv s i c (t.advanceStep).2 := by
  obtain ⟨hs, hi, hc, k, hk, hnx⟩ := h
  refine ⟨by rw [advanceStep_snd_start]; exact hs,
          by rw [advanceStep_snd_interval]; exact hi,
          by rw [advanceStep_snd_next]; omega,
          k + 1, by omega, ?_⟩
  rw [advanceStep_snd_next, hnx, hi]
  push_cast
  ring

theorem iterate_inv (s i c : Int) (hpos : 0 < i) (t : TestTimer) (now : Int)
    (h : TimerInv s i c t) : TimerInv s i c (t.iterate_next_time now) := by
  obtain ⟨hs, hi, hc, k, hk, hnx⟩ := h
  refine ⟨by rw [iterate_next_time_start]; exact hs,
          by rw [iterate_next_time_interval]; exact hi,
          by rw [iterate_next_time_next]; omega,
          k + 1, by omega, ?_⟩
  rw [iterate_next_time_next, hnx, hi]
  push_cast
  ring

theorem reachable_inv (s i c : Int) (hpos : 0 < i) (t0 t : TestTimer)
    (hr : Reachable t0 t) (h0 : TimerInv s i c t0) : TimerInv s i c t := by
  induction hr with
  | refl => exact h0
  | iterate t2 now hr ih => exact iterate_inv s i c hpos t2 now ih
  | advance t2 to_time hr ih =>
    exact advance_preserves (TimerInv s i c) (advanceStep_inv s i c hpos)
      t2 to_time ih
  | popNext t2 hr ih => exact advanceStep_inv s i c hpos t2 ih
  | cancel t2 hr ih => exact ih
  | popEvent t2 event_id hr ih => exact ih

/-! ### Claims -/

/-- C1 (counterexample): for the TestTimer with interval 1 s (1000 units),
start time 0 and stop time 2.5 s, `advance(10 s)` does not return 2 events
with timestamps 1 s and 2 s — the claim fails on the code. -/
theorem c1_counterexample :
    (timerStop25.advance 10000).1.length ≠ 2 ∧
    (timerStop25.advance 10000).1.map TimeEvent.timestamp ≠ [1000, 2000] := by
  decide

/-- C1 (amended): for a TestTimer with interval 1 s, start time `T0` and stop
time `T0 + 2.5 s`, a single `advance(T0 + 10 s)` returns exactly 3 TimeEvents
with timestamps `T0+1 s`, `T0+2 s`, `T0+3 s` — the loop pops the `T0+3 s`
event before the expiry check first sees a fire time at or past the stop
time — and leaves the expired flag true. -/
theorem c1_stop_scenario (T0 : Int) (nm : String) (cb u : Nat) :
    ((TestTimer.advance ⟨nm, cb, 1000, T0, T0 + 1000, some (T0 + 2500), false, u⟩
      (T0 + 10000)).1).map TimeEvent.timestamp =
      [T0 + 1000, T0 + 2000, T0 + 3000] ∧
    ((TestTimer.advance ⟨nm, cb, 1000, T0, T0 + 1000, some (T0 + 2500), false, u⟩
      (T0 + 10000)).1).length = 3 ∧
    (TestTimer.advance ⟨nm, cb, 1000, T0, T0 + 1000, some (T0 + 2500), false, u⟩
      (T0 + 10000)).2.expired = true := by
  rw [advance_cons _ _ (by norm_num) rfl (by dsimp only; omega)]
  rw [advanceStep_record_some]
  rw [if_neg (by omega)]
  dsimp only
  rw [advance_cons _ _ (by norm_num) rfl (by dsimp only; omega)]
  rw [advanceStep_record_some]
  rw [if_neg (by omega)]
  dsimp only
  rw [advance_cons _ _ (by norm_num) rfl (by dsimp only; omega)]
  rw [advanceStep_record_some]
  rw [if_pos (by omega)]
  dsimp only
  rw [advance_notrun _ _ (Or.inl rfl)]
  simp only [List.map_cons, List.map_nil, List.length_cons, List.length_nil]
  norm_num
  constructor <;> ring

/-- C2 (counterexample): on an already-expired timer, `pop_next_event` does
not yield an empty result: it returns a genuine TimeEvent stamped with the
current `next_time` and mutates the timer state. -/
theorem c2_counterexample :
    timerCancelled.expired = true ∧
    (timerCancelled.pop_next_event).2 ≠ timerCancelled ∧
    (timerCancelled.pop_next_event).1 = ⟨"TEST-TIMER", 0, 1000⟩ := by
  decide

/-- C2 (amended): for every TestTimer whose expired flag is true,
`advance(to_time)` returns an empty sequence (and leaves the timer unchanged)
for every `to_time`; `pop_next_event()` does not fail either, but instead of
an empty result it returns a TimeEvent stamped with the current `next_time`
and still advances `next_time` by one interval. -/
theorem c2_expired_behaviour (t : TestTimer) (to_time : Int)
    (h : t.expired = true) :
    t.advance to_time = ([], t) ∧
    (t.pop_next_event).1 = ⟨t.name, t.uuid_count, t.next_time⟩ ∧
    (t.pop_next_event).2.next_time = t.next_time + t.interval := by
  refine ⟨advance_notrun t to_time (Or.inl h), ?_, ?_⟩
  · exact advanceStep_fst t
  · exact advanceStep_snd_next t

/-- C2 witness: the amended statement applied to a concrete expired timer. -/
theorem c2_witness :
    timerCancelled.expired = true ∧
    timerCancelled.advance 10000 = ([], timerCancelled) ∧
    (timerCancelled.pop_next_event).1 = ⟨"TEST-TIMER", 0, 1000⟩ ∧
    (timerCancelled.pop_next_event).2.next_time = 2000 := by
  have h := c2_expired_behaviour timerCancelled 10000 rfl
  exact ⟨rfl, h.1, h.2.1.trans (by decide), h.2.2.trans (by decide)⟩

/-- C3 (counterexample): a non-expired TestTimer with a stop time does not
return one event per fire point `≤ to_time`: for interval 1 s, start 0 and
stop 2.5 s, ten fire points are `≤ 10 s` but `advance(10 s)` returns only 3
events. -/
theorem c3_counterexample :
    timerStop25.expired = false ∧
    (∀ k : Nat, k < 10 → timerStop25.next_time + k * timerStop25.interval ≤ 10000) ∧
    (timerStop25.advance 10000).1.length = 3 := by
  decide

/-- C3 witness: the amended statement applied to the timer with interval 1 s,
start 0 and no stop time, advanced to 3.5 s: exactly 3 events at 1 s, 2 s,
3 s. -/
theorem c3_witness :
    (timerNoStop.advance 3500).1.map TimeEvent.timestamp =
      (List.range 3).map
        (fun k : Nat => timerNoStop.next_time + (k : Int) * timerNoStop.interval) ∧
    (timerNoStop.advance 3500).1.map TimeEvent.timestamp = [1000, 2000, 3000] := by
  have h := advance_noStop_timestamps 3500 3 timerNoStop (by decide) (by decide)
    (by decide) (by intro k; simp only [timerNoStop]; omega)
  exact ⟨h, h.trans (by decide)⟩

/-- C4: for every TestTimer (with its construction invariant
`0 < interval`) and times `T1 ≤ T2`, advancing to `T1` and then to `T2`
leaves exactly the same final state as a single `advance(T2)` — in fact the
whole records coincide, in particular `next_time` and `expired`. -/
theorem c4_advance_compose (t : TestTimer) (T1 T2 : Int)
    (hpos : 0 < t.interval) (h12 : T1 ≤ T2) :
    ((t.advance T1).2.advance T2).2 = (t.advance T2).2 :=
  advance_advance_aux T1 T2 h12 (T1 + 1 - t.next_time).toNat t hpos (le_refl _)

/-- C4 witness: the composition law at concrete timers and times. -/
theorem c4_witness :
    ((timerStop25.advance 1500).2.advance 9999).2 = (timerStop25.advance 9999).2 ∧
    ((timerNoStop.advance 1500).2.advance 3500).2 = (timerNoStop.advance 3500).2 :=
  ⟨c4_advance_compose timerStop25 1500 9999 (by decide) (by decide),
   c4_advance_compose timerNoStop 1500 3500 (by decide) (by decide)⟩

/-- C5: once the expired flag is true — however it was set — every
`advance(to_time)` returns the empty sequence and leaves the state unchanged
(so it stays expired forever); a cancelled timer in particular returns no
events, and `cancel()` twice equals `cancel()` once. -/
theorem c5_expired_absorbing (t : TestTimer) (to_time : Int) :
    (t.expired = true → t.advance to_time = ([], t)) ∧
    t.cancel.expired = true ∧
    t.cancel.advance to_time = ([], t.cancel) ∧
    t.cancel.cancel = t.cancel :=
  ⟨fun h => advance_notrun t to_time (Or.inl h), rfl,
   advance_notrun _ _ (Or.inl rfl), rfl⟩

/-- C5 witness: the absorbing-state law at a concrete expired timer. -/
theorem c5_witness :
    timerCancelled.expired = true ∧
    timerCancelled.advance 99999 = ([], timerCancelled) ∧
    timerNoStop.cancel.advance 99999 = ([], timerNoStop.cancel) ∧
    timerNoStop.cancel.cancel = timerNoStop.cancel := by
  have h := c5_expired_absorbing timerNoStop 99999
  have h2 := c5_expired_absorbing timerCancelled 99999
  exact ⟨rfl, h2.1 rfl, h.2.2.1, h.2.2.2⟩

/-- C6: construction succeeds exactly when the name is non-empty, the
interval is positive and any stop time satisfies
`start_time + interval ≤ stop_time`; a rejected construction produces no
timer at all, and a successful one starts in the validated state (the
`Condition` checks are modelled from the spec, as `correctness.pyx` is only
declared in the sources). -/
theorem c6_init_validation (nm : String) (cb : Nat) (i s : Int)
    (st : Option Int) :
    ((Timer.init nm cb i s st).isSome = true ↔
      (nm ≠ "" ∧ 0 < i ∧ ∀ x ∈ st, s + i ≤ x)) ∧
    (∀ t, Timer.init nm cb i s st = some t →
      t.name = nm ∧ t.callback = cb ∧ t.interval = i ∧ t.start_time = s ∧
      t.next_time = s + i ∧ t.stop_time = st ∧ t.expired = false) := by
  constructor
  · constructor
    · intro h
      obtain ⟨t, ht⟩ := Option.isSome_iff_exists.mp h
      obtain ⟨-, hnm, hi, hst⟩ := init_some_elim nm cb i s st t ht
      exact ⟨hnm, hi, hst⟩
    · rintro ⟨hnm, hi, hst⟩
      have h1 : validString nm = true := by
        unfold validString
        exact decide_eq_true hnm
      have h2 : positiveInterval i = true := by
        unfold positiveInterval
        exact decide_eq_true hi
      unfold Timer.init
      rw [h1, h2]
      cases st with
      | none => simp
      | some x =>
        have hx := hst x rfl
        simp [hx]
  · intro t ht
    obtain ⟨hrec, -, -, -⟩ := init_some_elim nm cb i s st t ht
    subst hrec
    exact ⟨rfl, rfl, rfl, rfl, rfl, rfl, rfl⟩

/-- C6 witness: a valid construction is accepted and rejected parameter sets
are refused. -/
theorem c6_witness :
    (Timer.init "TEST-TIMER" 7 1000 0 (some 2500)).isSome = true ∧
    (Timer.init "" 7 1000 0 none).isSome = false ∧
    (Timer.init "TEST-TIMER" 7 (-5) 0 none).isSome = false ∧
    (Timer.init "TEST-TIMER" 7 1000 0 (some 999)).isSome = false := by
  have hA := (c6_init_validation "TEST-TIMER" 7 1000 0 (some 2500)).1
  have hB := (c6_init_validation "" 7 1000 0 none).1
  have hC := (c6_init_validation "TEST-TIMER" 7 (-5) 0 none).1
  have hD := (c6_init_validation "TEST-TIMER" 7 1000 0 (some 999)).1
  refine ⟨hA.mpr ⟨by decide, by decide, ?_⟩, ?_, ?_, ?_⟩
  · intro x hx
    have : x = 2500 := by
      have := hx
      simp at this
      omega
    subst this
    decide
  · apply Bool.eq_false_iff.mpr
    intro hx
    exact absurd (hB.mp hx).1 (by simp)
  · apply Bool.eq_false_iff.mpr
    intro hx
    have := (hC.mp hx).2.1
    omega
  · apply Bool.eq_false_iff.mpr
    intro hx
    have := (hD.mp hx).2.2 999 rfl
    omega

/-- C7: TimeEventHandler comparisons are determined purely by the carried
events' timestamps: for all handlers, the six Python comparison operators
hold exactly according to the corresponding timestamp comparison, regardless
of the events' names or ids. -/
theorem c7_handler_ordering (h1 h2 : TimeEventHandler) :
    (h1.ltPy h2 = true ↔ h1.event.timestamp < h2.event.timestamp) ∧
    (h1.eqPy h2 = true ↔ h1.event.timestamp = h2.event.timestamp) ∧
    (h1.nePy h2 = true ↔ h1.event.timestamp ≠ h2.event.timestamp) ∧
    (h1.lePy h2 = true ↔ h1.event.timestamp ≤ h2.event.timestamp) ∧
    (h1.gtPy h2 = true ↔ h2.event.timestamp < h1.event.timestamp) ∧
    (h1.gePy h2 = true ↔ h2.event.timestamp ≤ h1.event.timestamp) := by
  refine ⟨?_, ?_, ?_, ?_, ?_, ?_⟩
  · simp [TimeEventHandler.ltPy]
  · simp [TimeEventHandler.eqPy]
  · simp [TimeEventHandler.nePy]
  · simp [TimeEventHandler.lePy]
  · simp [TimeEventHandler.gtPy]
  · simp [TimeEventHandler.gePy]

/-- C8: immediately after a valid construction `next_time` equals
`start_time + interval`; in every state reachable by the timer operations,
`next_time` equals `start_time + k·interval` for some `k ≥ 1`, it never
drops below its initial value, and each `iterate_next_time` adds exactly one
interval. -/
theorem c8_next_time_invariant (nm : String) (cb : Nat) (i s : Int)
    (st : Option Int) (t0 t : TestTimer)
    (hinit : Timer.init nm cb i s st = some t0)
    (hreach : Reachable t0 t) :
    t0.next_time = t0.start_time + t0.interval ∧
    (∀ now, (t.iterate_next_time now).next_time = t.next_time + t.interval) ∧
    (∃ k : Nat, 1 ≤ k ∧
      t.next_time = t.start_time + (k : Int) * t.interval) ∧
    t0.next_time ≤ t.next_time := by
  obtain ⟨hrec, -, hi, -⟩ := init_some_elim nm cb i s st t0 hinit
  have h0 : TimerInv s i (s + i) t0 := by
    subst hrec
    exact ⟨rfl, rfl, le_refl _, 1, le_refl _, by push_cast; ring⟩
  have hinv := reachable_inv s i (s + i) hi t0 t hreach h0
  obtain ⟨hs, hint, hc, k, hk, hnx⟩ := hinv
  refine ⟨by subst hrec; dsimp only, iterate_next_time_next t, ⟨k, hk, ?_⟩, ?_⟩
  · rw [hs, hint, hnx]
  · subst hrec
    dsimp only
    exact hc

/-- C8 witness: the invariant applied to a concretely constructed timer after
a concrete `advance`. -/
theorem c8_witness :
    timerNoStop.next_time = timerNoStop.start_time + timerNoStop.interval ∧
    ((timerNoStop.advance 3500).2.iterate_next_time 9999).next_time =
      (timerNoStop.advance 3500).2.next_time +
        (timerNoStop.advance 3500).2.interval ∧
    (∃ k : Nat, 1 ≤ k ∧ (timerNoStop.advance 3500).2.next_time =
      (timerNoStop.advance 3500).2.start_time +
        (k : Int) * (timerNoStop.advance 3500).2.interval) ∧
    timerNoStop.next_time ≤ (timerNoStop.advance 3500).2.next_time := by
  have h := c8_next_time_invariant "TEST-TIMER" 7 1000 0 none timerNoStop
    ((timerNoStop.advance 3500).2) (by decide)
    (Reachable.advance timerNoStop 3500 Reachable.refl)
  exact ⟨h.1, h.2.1 9999, h.2.2.1, h.2.2.2⟩

/-- C9: `pop_event(id)` returns a TimeEvent carrying the timer's name, the
given id and the current `next_time` as timestamp, and leaves the timer state
(every field) unchanged. -/
theorem c9_pop_event (t : TestTimer) (event_id : Nat) :
    (t.pop_event event_id).1.name = t.name ∧
    (t.pop_event event_id).1.id = event_id ∧
    (t.pop_event event_id).1.timestamp = t.next_time ∧
    (t.pop_event event_id).2 = t :=
  ⟨rfl, rfl, rfl, rfl⟩

/-- C10: Timer equality is by name alone — equal names compare equal and
hash equal whatever the other fields are, different names compare unequal. -/
theorem c10_timer_eq_hash (t1 t2 : TestTimer) :
    (t1.eqPy t2 = true ↔ t1.name = t2.name) ∧
    (t1.name = t2.name → t1.hashPy = t2.hashPy) := by
  constructor
  · simp [TestTimer.eqPy]
  · intro h
    simp [TestTimer.hashPy, h]

/-- C10 witness: two timers sharing a name but differing in stop time compare
equal and hash equal; a differently named timer compares unequal. -/
theorem c10_witness :
    timerNoStop.eqPy timerStop25 = true ∧
    timerNoStop.hashPy = timerStop25.hashPy ∧
    timerNoStop.stop_time ≠ timerStop25.stop_time ∧
    timerNoStop.eqPy timerOther = false := by
  have h := c10_timer_eq_hash timerNoStop timerStop25
  have h2 := c10_timer_eq_hash timerNoStop timerOther
  refine ⟨h.1.mpr rfl, h.2 rfl, by decide, ?_⟩
  apply Bool.eq_false_iff.mpr
  intro hx
  exact absurd (h2.1.mp hx) (by decide)

end NautilusTimer
